import Mathlib

/-!
# go-clouddriver: job lifecycle state and the SQL catalog

A shallow embedding of `pkg/sql/sql.go` and of `Job.State` as exercised by
`pkg/kubernetes/job_test.go`, with the properties of both.
-/

set_option autoImplicit false
set_option linter.dupNamespace false

namespace Clouddriver

/-! ## pkg/kubernetes: the job snapshot -/

/-- The timestamp type `metav1.Time`; only its presence matters to `State`. -/
structure Time where
  unix : Int
  deriving DecidableEq, Repr

/-- The condition record `v1.JobCondition`, reduced to the field the test sets
(`Type`, a reserved word here, hence `Type_`). -/
structure JobCondition where
  Type_ : String
  deriving DecidableEq, Repr

/-- The part of `v1.JobSpec` the test sets: `Completions *int32`. -/
structure JobSpec where
  Completions : Option Int
  deriving DecidableEq, Repr

/-- The part of `v1.JobStatus` the test sets: `CompletionTime *metav1.Time`,
`Succeeded int32` and `Conditions []v1.JobCondition`. -/
structure JobStatus where
  CompletionTime : Option Time
  Succeeded : Int
  Conditions : List JobCondition
  deriving DecidableEq, Repr

/-- The object behind a `Job`, as `job.Object()` exposes it in the test. -/
structure Job where
  Spec : JobSpec
  Status : JobStatus
  deriving DecidableEq, Repr

/-- Modelled from the spec: `Job.State` of `pkg/kubernetes/job.go`, a file that is
not among the sources (only `job_test.go` is). Section 4.1, first match wins:
1. completion timestamp absent: Running;
2. else some condition has type "Failed": Failed;
3. else the succeeded count is at least the declared completions, or positive
   when none is declared: Succeeded;
4. else Running.
`Succeeded` is a plain `int32` in the test, so it is always present. -/
def Job.State (j : Job) : String :=
  match j.Status.CompletionTime with
  | none => "Running"
  | some _ =>
    if j.Status.Conditions.any (fun c => c.Type_ == "Failed") then "Failed"
    else
      match j.Spec.Completions with
      | some completions =>
        if j.Status.Succeeded ≥ completions then "Succeeded" else "Running"
      | none =>
        if j.Status.Succeeded > 0 then "Succeeded" else "Running"

/-! ## pkg/sql: configuration -/

/-- The struct `Config` of `sql.go`. -/
structure Config where
  User : String
  Password : String
  Host : String
  Name : String
  deriving DecidableEq, Repr

/-- The call `fmt.Sprintf("%s:%s@tcp(%s)/%s?charset=utf8&parseTime=True&loc=UTC", ...)`
of `Connection`: each `%s` verb is replaced by its string argument. -/
def connectionString (user password host name : String) : String :=
  user ++ ":" ++ password ++ "@tcp(" ++ host ++ ")/" ++ name ++
    "?charset=utf8&parseTime=True&loc=UTC"

/-- The function `Connection` of `sql.go`: driver and connection string. The
`log.Println` of the first branch writes to the process log only. -/
def Connection (c : Config) : String × String :=
  if c.User == "" || c.Password == "" || c.Host == "" || c.Name == "" then
    ("sqlite3", "clouddriver.db")
  else
    ("mysql", connectionString c.User c.Password c.Host c.Name)

/-! ## pkg/sql: the stored entities -/

/-- Modelled from the spec: the struct `kubernetes.Provider`, declared outside
`sql.go`. Sections 3 and 6: name (unique key), connection host, CA data and
bearer credential, in the columns `name`, `host`, `ca_data`, `bearer_token`
that `sql.go` selects. -/
structure Provider where
  Name : String
  Host : String
  CAData : String
  BearerToken : String
  deriving DecidableEq, Repr

/-- Modelled from the spec: the struct `kubernetes.Resource`, declared outside
`sql.go`. Sections 3 and 6: account name, application name, task identifier,
API group, kind, name, namespace, serialized manifest and version. The column
names are the ones `sql.go` selects (`resource` for the manifest). -/
structure Resource where
  AccountName : String
  SpinnakerApp : String
  TaskID : String
  APIGroup : String
  Kind : String
  Name : String
  Namespace : String
  Resource : String
  Version : String
  deriving DecidableEq, Repr

/-- Modelled from the spec: the struct `clouddriver.ReadPermission`, declared
outside `sql.go`: one read group assigned to one account. -/
structure ReadPermission where
  AccountName : String
  ReadGroup : String
  deriving DecidableEq, Repr

/-- Modelled from the spec: the struct `clouddriver.WritePermission`, declared
outside `sql.go`: one write group assigned to one account. -/
structure WritePermission where
  AccountName : String
  WriteGroup : String
  deriving DecidableEq, Repr

/-! ## The relational backend behind `*gorm.DB`

The ORM and the storage engine are external to the repository. They are
modelled as an in-memory relational store that answers every statement it
receives: the four tables `Connect` migrates, and a log of the statements
received. A statement fails only for a reason visible in the statement or the
tables (an unknown column, a violated uniqueness constraint, a missing row for
`First`); transport failures are outside the model. -/

/-- The rows of the four tables `Connect` migrates. -/
structure Tables where
  providers : List Provider
  resources : List Resource
  read_permissions : List ReadPermission
  write_permissions : List WritePermission
  deriving DecidableEq, Repr

/-- The two kinds of statement `sql.go` issues. -/
inductive StatementKind where
  | query
  | insert
  deriving DecidableEq, Repr

/-- One statement as the backend receives it: the table, the `SELECT` list,
the `WHERE` conditions with their arguments and the `GROUP BY` list. -/
structure Statement where
  kind : StatementKind
  table : String
  selects : String
  whereConditions : List (String × String)
  group : String
  deriving DecidableEq, Repr

/-- The connected handle `*gorm.DB`: the backend's tables and the statements
it has received so far. -/
structure DB where
  tables : Tables
  log : List Statement
  deriving DecidableEq, Repr

/-- What the ORM derives from the type of the value passed to `Find`, `First`
or `Create`: the table, its column names, the columns under a uniqueness
constraint, the zero value, the value of a row in a named column, the scan of
the named columns of a row into a zero value, and the table's rows. -/
structure Schema (α : Type) where
  tableName : String
  columns : List String
  unique : List String
  zero : α
  get : α → String → String
  scan : List String → α → α
  rows : Tables → List α
  setRows : Tables → List α → Tables

/-- The table `providers`; `name` is its unique key (section 3). -/
def providers : Schema Provider where
  tableName := "providers"
  columns := ["name", "host", "ca_data", "bearer_token"]
  unique := ["name"]
  zero := ⟨"", "", "", ""⟩
  get p col :=
    if col = "name" then p.Name
    else if col = "host" then p.Host
    else if col = "ca_data" then p.CAData
    else if col = "bearer_token" then p.BearerToken
    else ""
  scan cols p :=
    { Name := if "name" ∈ cols then p.Name else "",
      Host := if "host" ∈ cols then p.Host else "",
      CAData := if "ca_data" ∈ cols then p.CAData else "",
      BearerToken := if "bearer_token" ∈ cols then p.BearerToken else "" }
  rows t := t.providers
  setRows t rs := { t with providers := rs }

/-- The table `resources`; no uniqueness constraint (section 4.2). -/
def resources : Schema Resource where
  tableName := "resources"
  columns := ["account_name", "spinnaker_app", "task_id", "api_group", "kind", "name",
    "namespace", "resource", "version"]
  unique := []
  zero := ⟨"", "", "", "", "", "", "", "", ""⟩
  get r col :=
    if col = "account_name" then r.AccountName
    else if col = "spinnaker_app" then r.SpinnakerApp
    else if col = "task_id" then r.TaskID
    else if col = "api_group" then r.APIGroup
    else if col = "kind" then r.Kind
    else if col = "name" then r.Name
    else if col = "namespace" then r.Namespace
    else if col = "resource" then r.Resource
    else if col = "version" then r.Version
    else ""
  scan cols r :=
    { AccountName := if "account_name" ∈ cols then r.AccountName else "",
      SpinnakerApp := if "spinnaker_app" ∈ cols then r.SpinnakerApp else "",
      TaskID := if "task_id" ∈ cols then r.TaskID else "",
      APIGroup := if "api_group" ∈ cols then r.APIGroup else "",
      Kind := if "kind" ∈ cols then r.Kind else "",
      Name := if "name" ∈ cols then r.Name else "",
      Namespace := if "namespace" ∈ cols then r.Namespace else "",
      Resource := if "resource" ∈ cols then r.Resource else "",
      Version := if "version" ∈ cols then r.Version else "" }
  rows t := t.resources
  setRows t rs := { t with resources := rs }

/-- The table `read_permissions`; no uniqueness constraint (section 6). -/
def read_permissions : Schema ReadPermission where
  tableName := "read_permissions"
  columns := ["account_name", "read_group"]
  unique := []
  zero := ⟨"", ""⟩
  get p col :=
    if col = "account_name" then p.AccountName
    else if col = "read_group" then p.ReadGroup
    else ""
  scan cols p :=
    { AccountName := if "account_name" ∈ cols then p.AccountName else "",
      ReadGroup := if "read_group" ∈ cols then p.ReadGroup else "" }
  rows t := t.read_permissions
  setRows t rs := { t with read_permissions := rs }

/-- The table `write_permissions`; no uniqueness constraint (section 6). -/
def write_permissions : Schema WritePermission where
  tableName := "write_permissions"
  columns := ["account_name", "write_group"]
  unique := []
  zero := ⟨"", ""⟩
  get p col :=
    if col = "account_name" then p.AccountName
    else if col = "write_group" then p.WriteGroup
    else ""
  scan cols p :=
    { AccountName := if "account_name" ∈ cols then p.AccountName else "",
      WriteGroup := if "write_group" ∈ cols then p.WriteGroup else "" }
  rows t := t.write_permissions
  setRows t rs := { t with write_permissions := rs }

/-- The pieces of a comma-separated list, as characters. -/
def splitComma : List Char → List (List Char)
  | [] => [[]]
  | c :: cs =>
    if c = ',' then [] :: splitComma cs
    else
      match splitComma cs with
      | [] => [[c]]
      | t :: ts => (c :: t) :: ts

/-- A piece without the blanks around it. -/
def trimSpaces (cs : List Char) : List Char :=
  ((cs.dropWhile (fun c => c == ' ')).reverse.dropWhile (fun c => c == ' ')).reverse

/-- The column names a `SELECT` or `GROUP BY` list names, in order. -/
def columnNames (query : String) : List String :=
  (splitComma query.data).map (fun t => String.mk (trimSpaces t))

/-- The names of a column list when each is a column of the table. -/
def resolveColumns {α : Type} (m : Schema α) (query : String) : Option (List String) :=
  if (columnNames query).all (fun n => decide (n ∈ m.columns)) then some (columnNames query)
  else none

/-- The column of a condition of the form `column = ?`, the only form `sql.go` uses. -/
def conditionColumn (query : String) : Option String :=
  match query.data.reverse with
  | '?' :: ' ' :: '=' :: ' ' :: rest => some (String.mk rest.reverse)
  | _ => none

/-- The conditions as (column, argument) pairs when each names a column of the table. -/
def resolveConditions {α : Type} (m : Schema α) :
    List (String × String) → Option (List (String × String))
  | [] => some []
  | (query, arg) :: rest =>
    match conditionColumn query, resolveConditions m rest with
    | some col, some conds => if col ∈ m.columns then some ((col, arg) :: conds) else none
    | _, _ => none

/-- The rows kept by `GROUP BY`: the first row of each group, a group being the
rows with one and the same key; `seen` holds the keys already met. -/
def groupRows {α : Type} (key : α → List String) : List (List String) → List α → List α
  | _, [] => []
  | seen, r :: rs =>
    if key r ∈ seen then groupRows key seen rs
    else r :: groupRows key (key r :: seen) rs

/-- The clauses a chain of `Select`, `Where` and `Group` calls has gathered. -/
structure Search where
  selects : String
  whereConditions : List (String × String)
  group : String
  deriving DecidableEq, Repr

/-- The handle in the middle of a chain: the backend and the clauses so far. -/
structure Chain where
  db : DB
  search : Search
  deriving DecidableEq, Repr

/-- The method `Select(query)` of the handle: starts a chain with a `SELECT` list. -/
def DB.Select (db : DB) (query : String) : Chain :=
  { db := db, search := { selects := query, whereConditions := [], group := "" } }

/-- The method `Where(query, arg)`: one more condition. -/
def Chain.Where (s : Chain) (query arg : String) : Chain :=
  { s with search :=
      { s.search with whereConditions := s.search.whereConditions ++ [(query, arg)] } }

/-- The method `Group(query)`: sets the `GROUP BY` list. -/
def Chain.Group (s : Chain) (query : String) : Chain :=
  { s with search := { s.search with group := query } }

/-- The statement a chain sends for a table. -/
def Chain.statement {α : Type} (m : Schema α) (s : Chain) : Statement :=
  { kind := StatementKind.query, table := m.tableName, selects := s.search.selects,
    whereConditions := s.search.whereConditions, group := s.search.group }

/-- The rows the backend answers a chain with, or `none` for a statement it
rejects: the rows meeting every condition, one per group when a `GROUP BY`
list is set, each scanned into a zero value on the selected columns. -/
def Chain.selectRows {α : Type} (m : Schema α) (s : Chain) : Option (List α) :=
  match resolveColumns m s.search.selects, resolveConditions m s.search.whereConditions with
  | some sel, some conds =>
    let matched := (m.rows s.db.tables).filter
      (fun r => conds.all (fun cond => m.get r cond.1 == cond.2))
    if s.search.group = "" then some (matched.map (m.scan sel))
    else
      match resolveColumns m s.search.group with
      | some grp => some ((groupRows (fun r => grp.map (m.get r)) [] matched).map (m.scan sel))
      | none => none
  | _, _ => none

/-- What a call that ends a chain leaves: the value written through the
pointer argument, the field `Error` and the backend after the statement. -/
structure Outcome (α : Type) where
  out : α
  Error : Option String
  db : DB

/-- The method `Find(&rows)` on a slice: every row of the answer, and no error
when the answer is empty. -/
def Chain.Find {α : Type} (m : Schema α) (s : Chain) : Outcome (List α) :=
  match s.selectRows m with
  | some rows =>
    { out := rows, Error := none, db := { s.db with log := s.db.log ++ [s.statement m] } }
  | none =>
    { out := [], Error := some "invalid statement",
      db := { s.db with log := s.db.log ++ [s.statement m] } }

/-- The method `First(&row)` on a struct: the first row of the answer, or the
error "record not found" and an untouched value when the answer is empty. -/
def Chain.First {α : Type} (m : Schema α) (s : Chain) : Outcome α :=
  match s.selectRows m with
  | some (r :: _) =>
    { out := r, Error := none, db := { s.db with log := s.db.log ++ [s.statement m] } }
  | some [] =>
    { out := m.zero, Error := some "record not found",
      db := { s.db with log := s.db.log ++ [s.statement m] } }
  | none =>
    { out := m.zero, Error := some "invalid statement",
      db := { s.db with log := s.db.log ++ [s.statement m] } }

/-- The method `Create(&row)`: appends the row to its table, unless a stored
row has the same value in a column under a uniqueness constraint. -/
def DB.Create {α : Type} (m : Schema α) (db : DB) (value : α) : Outcome Unit :=
  if (m.rows db.tables).any
      (fun r => m.unique.any (fun col => m.get r col == m.get value col)) then
    { out := (), Error := some "constraint violation",
      db := { db with log := db.log ++ [⟨StatementKind.insert, m.tableName, "", [], ""⟩] } }
  else
    { out := (), Error := none,
      db := { tables := m.setRows db.tables (m.rows db.tables ++ [value]),
              log := db.log ++ [⟨StatementKind.insert, m.tableName, "", [], ""⟩] } }

/-! ## pkg/sql: the client -/

/-- The struct `client` of `sql.go`. -/
structure client where
  db : DB
  deriving DecidableEq, Repr

/-- The function `NewClient` of `sql.go`. -/
def NewClient (db : DB) : client :=
  { db := db }

/-- What a method of the client returns: its value, its error (`none` for
`nil`) and the client after the call. -/
structure Reply (α : Type) where
  value : α
  err : Option String
  next : client

/-- The method `GetKubernetesProvider` of `sql.go`. -/
def client.GetKubernetesProvider (c : client) (name : String) : Reply Provider :=
  let db := ((c.db.Select "host, ca_data, bearer_token").Where "name = ?" name).First providers
  { value := db.out, err := db.Error, next := { db := db.db } }

/-- The method `CreateKubernetesProvider` of `sql.go`. -/
def client.CreateKubernetesProvider (c : client) (p : Provider) : Reply Unit :=
  let db := c.db.Create providers p
  { value := (), err := db.Error, next := { db := db.db } }

/-- The method `CreateKubernetesResource` of `sql.go`. -/
def client.CreateKubernetesResource (c : client) (r : Resource) : Reply Unit :=
  let db := c.db.Create resources r
  { value := (), err := db.Error, next := { db := db.db } }

/-- The method `CreateWritePermission` of `sql.go`. -/
def client.CreateWritePermission (c : client) (w : WritePermission) : Reply Unit :=
  let db := c.db.Create write_permissions w
  { value := (), err := db.Error, next := { db := db.db } }

/-- The method `CreateReadPermission` of `sql.go`. -/
def client.CreateReadPermission (c : client) (r : ReadPermission) : Reply Unit :=
  let db := c.db.Create read_permissions r
  { value := (), err := db.Error, next := { db := db.db } }

/-- The method `ListKubernetesProviders` of `sql.go`. -/
def client.ListKubernetesProviders (c : client) : Reply (List Provider) :=
  let db := (c.db.Select "name, host, ca_data").Find providers
  { value := db.out, err := db.Error, next := { db := db.db } }

/-- The method `ListKubernetesResourcesByTaskID` of `sql.go`. -/
def client.ListKubernetesResourcesByTaskID (c : client) (taskID : String) :
    Reply (List Resource) :=
  let db := ((c.db.Select "account_name, api_group, kind, name, namespace, resource, version").Where
    "task_id = ?" taskID).Find resources
  { value := db.out, err := db.Error, next := { db := db.db } }

/-- The loop of `ListKubernetesResourcesByFields` that builds `list`: at index
`i` of `n` fields it appends the field, and ", " unless `i` is `n - 1`. -/
def fieldList (n : Nat) : Nat → List String → String → String
  | _, [], list => list
  | i, field :: rest, list =>
    let list := list ++ field
    let list := if i != n - 1 then list ++ ", " else list
    fieldList n (i + 1) rest list

/-- The method `ListKubernetesResourcesByFields` of `sql.go`. -/
def client.ListKubernetesResourcesByFields (c : client) (fields : List String) :
    Reply (List Resource) :=
  if fields.length == 0 then
    { value := [], err := some "no fields provided", next := c }
  else
    let list := fieldList fields.length 0 fields ""
    let db := ((c.db.Select list).Group list).Find resources
    { value := db.out, err := db.Error, next := { db := db.db } }

/-- The method `ListKubernetesAccountsBySpinnakerApp` of `sql.go`. -/
def client.ListKubernetesAccountsBySpinnakerApp (c : client) (spinnakerApp : String) :
    Reply (List String) :=
  let db := (((c.db.Select "account_name").Where "spinnaker_app = ?" spinnakerApp).Group
    "account_name").Find resources
  { value := db.out.foldl (fun accounts r => accounts ++ [r.AccountName]) [],
    err := db.Error, next := { db := db.db } }

/-- The method `ListReadGroupsByAccountName` of `sql.go`. -/
def client.ListReadGroupsByAccountName (c : client) (accountName : String) :
    Reply (List String) :=
  let db := (((c.db.Select "read_group").Where "account_name = ?" accountName).Group
    "read_group").Find read_permissions
  { value := db.out.foldl (fun groups v => groups ++ [v.ReadGroup]) [],
    err := db.Error, next := { db := db.db } }

/-- The method `ListWriteGroupsByAccountName` of `sql.go`. -/
def client.ListWriteGroupsByAccountName (c : client) (accountName : String) :
    Reply (List String) :=
  let db := (((c.db.Select "write_group").Where "account_name = ?" accountName).Group
    "write_group").Find write_permissions
  { value := db.out.foldl (fun groups v => groups ++ [v.WriteGroup]) [],
    err := db.Error, next := { db := db.db } }

/-! ## Theorems -/

/-! ### Job.State -/

/-- C1: a job whose status has no completion time is "Running", whatever its
succeeded count, declared completions and conditions are. -/
theorem state_running_without_completion_time (j : Job)
    (h : j.Status.CompletionTime = none) : j.State = "Running" := by
  simp [Job.State, h]

/-- The statement of C1 at a job with a succeeded count, declared completions
and a "Failed" condition, but no completion time. -/
theorem state_running_without_completion_time_witness :
    (Job.mk ⟨some 1⟩ ⟨none, 5, [⟨"Failed"⟩]⟩).Status.CompletionTime = none ∧
      (Job.mk ⟨some 1⟩ ⟨none, 5, [⟨"Failed"⟩]⟩).State = "Running" :=
  ⟨rfl, state_running_without_completion_time _ rfl⟩

/-- C2: a job with a completion time and at least one condition of type
"Failed" is "Failed", whatever its succeeded count and declared completions
are (so also when the count meets the completions). -/
theorem state_failed_with_failed_condition (j : Job) (t : Time)
    (ht : j.Status.CompletionTime = some t)
    (hc : ∃ c ∈ j.Status.Conditions, c.Type_ = "Failed") : j.State = "Failed" := by
  obtain ⟨c, hmem, hty⟩ := hc
  have hany : (j.Status.Conditions.any fun c => c.Type_ == "Failed") = true :=
    List.any_eq_true.mpr ⟨c, hmem, by simp [hty]⟩
  simp [Job.State, ht, hany]

/-- The statement of C2 at the job of the test "the job has failed", with the
succeeded count meeting the declared completions. -/
theorem state_failed_with_failed_condition_witness :
    (Job.mk ⟨some 1⟩ ⟨some ⟨0⟩, 1, [⟨"Complete"⟩, ⟨"Failed"⟩]⟩).State = "Failed" :=
  state_failed_with_failed_condition _ ⟨0⟩ rfl ⟨⟨"Failed"⟩, by decide, rfl⟩

/-- C3 as stated fails: a job with a completion time, declared completions 1
and succeeded count 1 that carries a "Failed" condition is "Failed", not
"Succeeded". -/
theorem state_succeeded_count_one_counterexample :
    (Job.mk ⟨some 1⟩ ⟨some ⟨0⟩, 1, [⟨"Failed"⟩]⟩).Status.CompletionTime = some ⟨0⟩ ∧
      (Job.mk ⟨some 1⟩ ⟨some ⟨0⟩, 1, [⟨"Failed"⟩]⟩).Spec.Completions = some 1 ∧
      (Job.mk ⟨some 1⟩ ⟨some ⟨0⟩, 1, [⟨"Failed"⟩]⟩).Status.Succeeded = 1 ∧
      (Job.mk ⟨some 1⟩ ⟨some ⟨0⟩, 1, [⟨"Failed"⟩]⟩).State = "Failed" ∧
      (Job.mk ⟨some 1⟩ ⟨some ⟨0⟩, 1, [⟨"Failed"⟩]⟩).State ≠ "Succeeded" := by
  decide

/-- C3, amended: a job with a completion time, declared completions 1 and no
condition of type "Failed" is "Succeeded" when its succeeded count is 1 and
"Running" when its succeeded count is 0. -/
theorem state_with_one_completion (j : Job) (t : Time)
    (ht : j.Status.CompletionTime = some t)
    (hn : j.Spec.Completions = some 1)
    (hc : ∀ c ∈ j.Status.Conditions, c.Type_ ≠ "Failed") :
    (j.Status.Succeeded = 1 → j.State = "Succeeded") ∧
      (j.Status.Succeeded = 0 → j.State = "Running") := by
  have hany : (j.Status.Conditions.any fun c => c.Type_ == "Failed") = false := by
    rw [List.any_eq_false]
    intro c hmem
    simpa using hc c hmem
  constructor
  · intro hs
    simp [Job.State, ht, hn, hany, hs]
  · intro hs
    simp [Job.State, ht, hn, hany, hs]

/-- The amended C3 at the jobs of the tests "the job succeeded" and "the job
is partially successful". -/
theorem state_with_one_completion_witness :
    (Job.mk ⟨some 1⟩ ⟨some ⟨0⟩, 1, []⟩).State = "Succeeded" ∧
      (Job.mk ⟨some 1⟩ ⟨some ⟨0⟩, 0, []⟩).State = "Running" :=
  ⟨(state_with_one_completion (Job.mk ⟨some 1⟩ ⟨some ⟨0⟩, 1, []⟩) ⟨0⟩ rfl rfl
      (by intro c hc; cases hc)).1 rfl,
   (state_with_one_completion (Job.mk ⟨some 1⟩ ⟨some ⟨0⟩, 0, []⟩) ⟨0⟩ rfl rfl
      (by intro c hc; cases hc)).2 rfl⟩

/-! ### Connection -/

/-- C10: `Connection` returns ("sqlite3", "clouddriver.db") if and only if one
of the four configuration fields is empty, and otherwise the driver "mysql"
with the connection string built from the four fields. -/
theorem connection_sqlite_iff_field_missing (c : Config) :
    (Connection c = ("sqlite3", "clouddriver.db") ↔
        (c.User = "" ∨ c.Password = "" ∨ c.Host = "" ∨ c.Name = "")) ∧
      (¬ (c.User = "" ∨ c.Password = "" ∨ c.Host = "" ∨ c.Name = "") →
        Connection c = ("mysql", c.User ++ ":" ++ c.Password ++ "@tcp(" ++ c.Host ++ ")/" ++
          c.Name ++ "?charset=utf8&parseTime=True&loc=UTC")) := by
  by_cases h : c.User = "" ∨ c.Password = "" ∨ c.Host = "" ∨ c.Name = ""
  · have hc : Connection c = ("sqlite3", "clouddriver.db") := by
      unfold Connection
      rw [if_pos]
      simpa [or_assoc] using h
    exact ⟨⟨fun _ => h, fun _ => hc⟩, fun hn => absurd h hn⟩
  · have hc : Connection c = ("mysql", connectionString c.User c.Password c.Host c.Name) := by
      unfold Connection
      rw [if_neg]
      simpa [or_assoc] using h
    refine ⟨⟨fun he => ?_, fun hh => absurd hh h⟩, fun _ => by rw [hc]; rfl⟩
    rw [hc] at he
    have h1 : ("mysql" : String) = "sqlite3" := congrArg Prod.fst he
    exact absurd h1 (by decide)

/-- The statement of C10 at a full configuration and at one with no password. -/
theorem connection_sqlite_iff_field_missing_witness :
    Connection ⟨"user", "pw", "db:3306", "clouddriver"⟩ =
        ("mysql", "user:pw@tcp(db:3306)/clouddriver?charset=utf8&parseTime=True&loc=UTC") ∧
      Connection ⟨"user", "", "db:3306", "clouddriver"⟩ = ("sqlite3", "clouddriver.db") :=
  ⟨(connection_sqlite_iff_field_missing ⟨"user", "pw", "db:3306", "clouddriver"⟩).2 (by decide),
   (connection_sqlite_iff_field_missing ⟨"user", "", "db:3306", "clouddriver"⟩).1.mpr
      (by decide)⟩

/-! ### The catalog: helper lemmas -/

theorem resolve_providers_list :
    resolveColumns providers "name, host, ca_data" = some ["name", "host", "ca_data"] := by
  decide

theorem resolve_resources_task_list :
    resolveColumns resources
        "account_name, api_group, kind, name, namespace, resource, version" =
      some ["account_name", "api_group", "kind", "name", "namespace", "resource",
        "version"] := by
  decide

theorem resolve_read_group :
    resolveColumns read_permissions "read_group" = some ["read_group"] := by
  decide

theorem resolve_write_group :
    resolveColumns write_permissions "write_group" = some ["write_group"] := by
  decide

theorem condition_task_id : conditionColumn "task_id = ?" = some "task_id" := by
  decide

theorem condition_account_name : conditionColumn "account_name = ?" = some "account_name" := by
  decide

/-- The listing of providers: every stored provider, scanned on name, host and
CA data, and no error. -/
theorem list_providers_eq (c : client) :
    (c.ListKubernetesProviders).value =
        c.db.tables.providers.map (fun p => ⟨p.Name, p.Host, p.CAData, ""⟩) ∧
      (c.ListKubernetesProviders).err = none := by
  simp [client.ListKubernetesProviders, Chain.Find, Chain.selectRows, DB.Select,
    resolve_providers_list, resolveConditions]
  simp [providers]

/-- The listing by task: the stored resources with that task identifier, in
order, scanned on the seven selected columns, and no error. -/
theorem list_by_task_eq (c : client) (taskID : String) :
    (c.ListKubernetesResourcesByTaskID taskID).value =
        (c.db.tables.resources.filter (fun r => r.TaskID == taskID)).map
          (fun r => ⟨r.AccountName, "", "", r.APIGroup, r.Kind, r.Name, r.Namespace,
            r.Resource, r.Version⟩) ∧
      (c.ListKubernetesResourcesByTaskID taskID).err = none := by
  simp [client.ListKubernetesResourcesByTaskID, Chain.Find, Chain.selectRows, DB.Select,
    Chain.Where, resolve_resources_task_list, resolveConditions, condition_task_id]
  simp [resources]

/-- Recording a resource appends it to the table and cannot fail. -/
theorem create_resource_eq (c : client) (r : Resource) :
    (c.CreateKubernetesResource r).next.db.tables.resources =
        c.db.tables.resources ++ [r] ∧
      (c.CreateKubernetesResource r).err = none := by
  simp [client.CreateKubernetesResource, DB.Create, resources]

/-! ### The catalog: claims -/

/-- C4: for every store, the listing of providers is the stored providers
projected to name, host and CA data; the bearer token of every listed provider
is empty; and two stores whose providers differ in bearer tokens only have the
same listing. -/
theorem list_providers_omits_bearer_token :
    (∀ c : client, (c.ListKubernetesProviders).value =
        c.db.tables.providers.map (fun p => ⟨p.Name, p.Host, p.CAData, ""⟩)) ∧
      (∀ c : client, ∀ p ∈ (c.ListKubernetesProviders).value, p.BearerToken = "") ∧
      (∀ c₁ c₂ : client,
        c₁.db.tables.providers.map (fun p => (p.Name, p.Host, p.CAData)) =
          c₂.db.tables.providers.map (fun p => (p.Name, p.Host, p.CAData)) →
        (c₁.ListKubernetesProviders).value = (c₂.ListKubernetesProviders).value ∧
          (c₁.ListKubernetesProviders).err = (c₂.ListKubernetesProviders).err) := by
  refine ⟨fun c => (list_providers_eq c).1, ?_, ?_⟩
  · intro c p hp
    rw [(list_providers_eq c).1] at hp
    obtain ⟨q, -, rfl⟩ := List.mem_map.mp hp
    rfl
  · intro c₁ c₂ h
    rw [(list_providers_eq c₁).1, (list_providers_eq c₂).1, (list_providers_eq c₁).2,
      (list_providers_eq c₂).2]
    refine ⟨?_, rfl⟩
    have h2 := congrArg (List.map (fun t : String × String × String =>
      (⟨t.1, t.2.1, t.2.2, ""⟩ : Provider))) h
    simpa [List.map_map, Function.comp_def] using h2

/-- The statement of C4 at the scenario of the spec: the provider `cluster-a`
stored with the token "secret", and the same provider stored with another
token. -/
theorem list_providers_omits_bearer_token_witness :
    (client.mk ⟨⟨[⟨"cluster-a", "https://10.0.0.1", "ca", "secret"⟩], [], [], []⟩,
          []⟩).ListKubernetesProviders.value =
        [⟨"cluster-a", "https://10.0.0.1", "ca", ""⟩] ∧
      (client.mk ⟨⟨[⟨"cluster-a", "https://10.0.0.1", "ca", "secret"⟩], [], [], []⟩,
          []⟩).ListKubernetesProviders.value =
        (client.mk ⟨⟨[⟨"cluster-a", "https://10.0.0.1", "ca", "other"⟩], [], [], []⟩,
          []⟩).ListKubernetesProviders.value :=
  ⟨list_providers_omits_bearer_token.1 _,
   (list_providers_omits_bearer_token.2.2
      (client.mk ⟨⟨[⟨"cluster-a", "https://10.0.0.1", "ca", "secret"⟩], [], [], []⟩, []⟩)
      (client.mk ⟨⟨[⟨"cluster-a", "https://10.0.0.1", "ca", "other"⟩], [], [], []⟩, []⟩)
      rfl).1⟩

/-- C5: with zero fields `ListKubernetesResourcesByFields` returns no resources
and the error "no fields provided", and leaves the client as it was: the
backend receives no statement. -/
theorem list_by_fields_rejects_no_fields (c : client) :
    (c.ListKubernetesResourcesByFields []).value = [] ∧
      (c.ListKubernetesResourcesByFields []).err = some "no fields provided" ∧
      (c.ListKubernetesResourcesByFields []).err ≠ none ∧
      (c.ListKubernetesResourcesByFields []).next = c ∧
      (c.ListKubernetesResourcesByFields []).next.db.log = c.db.log := by
  simp [client.ListKubernetesResourcesByFields]

/-- C6: after `CreateKubernetesResource r` succeeds, the listing by the task
identifier of `r` returns no error and has an entry equal to `r` in account
name, API group, kind, name, namespace, resource body and version. -/
theorem create_then_list_by_task (c : client) (r : Resource)
    (h : (c.CreateKubernetesResource r).err = none) :
    ((c.CreateKubernetesResource r).next.ListKubernetesResourcesByTaskID r.TaskID).err = none ∧
      ∃ e ∈ ((c.CreateKubernetesResource r).next.ListKubernetesResourcesByTaskID
          r.TaskID).value,
        e.AccountName = r.AccountName ∧ e.APIGroup = r.APIGroup ∧ e.Kind = r.Kind ∧
          e.Name = r.Name ∧ e.Namespace = r.Namespace ∧ e.Resource = r.Resource ∧
          e.Version = r.Version := by
  have _ := h
  refine ⟨(list_by_task_eq _ _).2, ?_⟩
  rw [(list_by_task_eq _ _).1, (create_resource_eq c r).1]
  refine ⟨⟨r.AccountName, "", "", r.APIGroup, r.Kind, r.Name, r.Namespace, r.Resource,
    r.Version⟩, ?_, rfl, rfl, rfl, rfl, rfl, rfl, rfl⟩
  apply List.mem_map.mpr
  exact ⟨r, by simp, rfl⟩

/-- The statement of C6 at a store that already holds a resource of another
task. -/
theorem create_then_list_by_task_witness :
    ((client.mk ⟨⟨[], [⟨"acct", "app", "t0", "", "Pod", "p", "ns", "x", "v1"⟩], [], []⟩,
          []⟩).CreateKubernetesResource
        ⟨"acct", "app", "t1", "apps", "Deployment", "web", "default", "body", "v1"⟩).err =
        none ∧
      ∃ e ∈ (((client.mk ⟨⟨[], [⟨"acct", "app", "t0", "", "Pod", "p", "ns", "x", "v1"⟩], [],
            []⟩, []⟩).CreateKubernetesResource
          ⟨"acct", "app", "t1", "apps", "Deployment", "web", "default", "body",
            "v1"⟩).next.ListKubernetesResourcesByTaskID "t1").value,
        e.AccountName = "acct" ∧ e.APIGroup = "apps" ∧ e.Kind = "Deployment" ∧
          e.Name = "web" ∧ e.Namespace = "default" ∧ e.Resource = "body" ∧
          e.Version = "v1" :=
  ⟨(create_resource_eq _ _).2,
   (create_then_list_by_task
      (client.mk ⟨⟨[], [⟨"acct", "app", "t0", "", "Pod", "p", "ns", "x", "v1"⟩], [], []⟩, []⟩)
      ⟨"acct", "app", "t1", "apps", "Deployment", "web", "default", "body", "v1"⟩
      (create_resource_eq _ _).2).2⟩

/-- C7: for an account name with no read permission rows the read groups are
the empty sequence with no error, and for an account name with no write
permission rows the write groups are the empty sequence with no error. -/
theorem list_groups_empty_without_grants (c : client) (accountName : String) :
    ((∀ p ∈ c.db.tables.read_permissions, p.AccountName ≠ accountName) →
        (c.ListReadGroupsByAccountName accountName).value = [] ∧
          (c.ListReadGroupsByAccountName accountName).err = none) ∧
      ((∀ p ∈ c.db.tables.write_permissions, p.AccountName ≠ accountName) →
        (c.ListWriteGroupsByAccountName accountName).value = [] ∧
          (c.ListWriteGroupsByAccountName accountName).err = none) := by
  constructor
  · intro h
    have hf : c.db.tables.read_permissions.filter
        (fun p => p.AccountName == accountName) = [] := by
      rw [List.filter_eq_nil_iff]
      intro p hp
      simpa using h p hp
    simp [client.ListReadGroupsByAccountName, Chain.Find, Chain.selectRows, DB.Select,
      Chain.Where, Chain.Group, resolve_read_group, resolveConditions,
      condition_account_name]
    simp [read_permissions, hf, groupRows]
  · intro h
    have hf : c.db.tables.write_permissions.filter
        (fun p => p.AccountName == accountName) = [] := by
      rw [List.filter_eq_nil_iff]
      intro p hp
      simpa using h p hp
    simp [client.ListWriteGroupsByAccountName, Chain.Find, Chain.selectRows, DB.Select,
      Chain.Where, Chain.Group, resolve_write_group, resolveConditions,
      condition_account_name]
    simp [write_permissions, hf, groupRows]

/-- The statement of C7 at a store with grants for the account "acct" only,
asked for the account "other". -/
theorem list_groups_empty_without_grants_witness :
    ((client.mk ⟨⟨[], [], [⟨"acct", "readers"⟩], [⟨"acct", "writers"⟩]⟩,
          []⟩).ListReadGroupsByAccountName "other").value = [] ∧
      ((client.mk ⟨⟨[], [], [⟨"acct", "readers"⟩], [⟨"acct", "writers"⟩]⟩,
          []⟩).ListWriteGroupsByAccountName "other").value = [] :=
  ⟨((list_groups_empty_without_grants
      (client.mk ⟨⟨[], [], [⟨"acct", "readers"⟩], [⟨"acct", "writers"⟩]⟩, []⟩) "other").1
      (by decide)).1,
   ((list_groups_empty_without_grants
      (client.mk ⟨⟨[], [], [⟨"acct", "readers"⟩], [⟨"acct", "writers"⟩]⟩, []⟩) "other").2
      (by decide)).1⟩

/-- C8 as stated fails: once a resource with the empty task identifier has
been recorded in an empty store, the listing for the empty task identifier
returns that resource, not the empty sequence. -/
theorem list_by_empty_task_counterexample :
    ((client.mk ⟨⟨[], [], [], []⟩, []⟩).CreateKubernetesResource
        ⟨"acct", "app", "", "apps", "Deployment", "web", "default", "body", "v1"⟩).err =
        none ∧
      (((client.mk ⟨⟨[], [], [], []⟩, []⟩).CreateKubernetesResource
          ⟨"acct", "app", "", "apps", "Deployment", "web", "default", "body",
            "v1"⟩).next.ListKubernetesResourcesByTaskID "").value =
        [⟨"acct", "", "", "apps", "Deployment", "web", "default", "body", "v1"⟩] ∧
      (((client.mk ⟨⟨[], [], [], []⟩, []⟩).CreateKubernetesResource
          ⟨"acct", "app", "", "apps", "Deployment", "web", "default", "body",
            "v1"⟩).next.ListKubernetesResourcesByTaskID "").value ≠ [] := by
  decide

/-- C8, amended: `ListKubernetesResourcesByTaskID` never returns an error, and
it returns the empty sequence exactly when no recorded resource has the given
task identifier, the empty identifier being matched like any other. -/
theorem list_by_task_empty_iff_no_match (c : client) (taskID : String) :
    (c.ListKubernetesResourcesByTaskID taskID).err = none ∧
      ((c.ListKubernetesResourcesByTaskID taskID).value = [] ↔
        ∀ r ∈ c.db.tables.resources, r.TaskID ≠ taskID) := by
  refine ⟨(list_by_task_eq c taskID).2, ?_⟩
  rw [(list_by_task_eq c taskID).1]
  simp [List.filter_eq_nil_iff]

/-! ### The column list of `ListKubernetesResourcesByFields` -/

theorem intercalate_go_append (s acc x : String) (l : List String) :
    String.intercalate.go (acc ++ x) s l = acc ++ String.intercalate.go x s l := by
  induction l generalizing x with
  | nil => simp [String.intercalate.go]
  | cons a l ih =>
    simp only [String.intercalate.go]
    rw [← ih]
    simp [String.append_assoc]

theorem intercalate_cons_cons (s f g : String) (l : List String) :
    s.intercalate (f :: g :: l) = f ++ s ++ s.intercalate (g :: l) := by
  simp only [String.intercalate, String.intercalate.go]
  rw [intercalate_go_append]

theorem fieldList_cons (n i : Nat) (f : String) (rest : List String) (list : String) :
    fieldList n i (f :: rest) list =
      fieldList n (i + 1) rest (if (i != n - 1) = true then list ++ f ++ ", " else list ++ f) :=
  rfl

/-- The loop that builds `list`, started at index `i` with `rest` left to
visit, appends the fields left joined by ", ". -/
theorem fieldList_eq_append (n : Nat) (rest : List String) :
    ∀ (i : Nat) (list : String), rest ≠ [] → i + rest.length = n →
      fieldList n i rest list = list ++ ", ".intercalate rest := by
  induction rest with
  | nil => intro i list h; exact absurd rfl h
  | cons f rest ih =>
    intro i list _ hn
    cases rest with
    | nil =>
      have hi : i = n - 1 := by simp at hn; omega
      simp [fieldList, hi, String.intercalate, String.intercalate.go]
    | cons g rest =>
      have hi : i ≠ n - 1 := by simp at hn; omega
      have hstep := ih (i + 1) (list ++ f ++ ", ") (by simp) (by simp at hn ⊢; omega)
      have hb : (i != n - 1) = true := by simpa using hi
      rw [intercalate_cons_cons, fieldList_cons, hb, if_pos rfl, hstep]
      simp [String.append_assoc]

/-- The column list built by the loop is the fields joined by ", ". -/
theorem fieldList_eq_intercalate (fields : List String) (h : fields ≠ []) :
    fieldList fields.length 0 fields "" = ", ".intercalate fields := by
  rw [fieldList_eq_append fields.length fields 0 "" h (by simp)]
  simp

theorem intercalate_go_data (s acc : String) (l : List String) :
    (String.intercalate.go acc s l).data =
      acc.data ++ (l.map (fun g => s.data ++ g.data)).flatten := by
  induction l generalizing acc with
  | nil => simp [String.intercalate.go]
  | cons a l ih => simp [String.intercalate.go, ih, List.append_assoc]

theorem splitComma_no_comma (t : List Char) (h : ',' ∉ t) : splitComma t = [t] := by
  induction t with
  | nil => rfl
  | cons c t ih =>
    have hc : c ≠ ',' := fun e => h (by simp [e])
    have ht : ',' ∉ t := fun e => h (by simp [e])
    simp [splitComma, hc, ih ht]

theorem splitComma_append_comma (t r : List Char) (h : ',' ∉ t) :
    splitComma (t ++ ',' :: r) = t :: splitComma r := by
  induction t with
  | nil => simp [splitComma]
  | cons c t ih =>
    have hc : c ≠ ',' := fun e => h (by simp [e])
    have ht : ',' ∉ t := fun e => h (by simp [e])
    simp [splitComma, hc, ih ht]

theorem splitComma_join (rest : List (List Char)) :
    ∀ t : List Char, ',' ∉ t → (∀ g ∈ rest, ',' ∉ g) →
      splitComma (t ++ (rest.map (fun g => ',' :: g)).flatten) = t :: rest := by
  induction rest with
  | nil => intro t ht _; simpa using splitComma_no_comma t ht
  | cons g rest ih =>
    intro t ht hrest
    have hg : ',' ∉ g := hrest g (by simp)
    have hr : ∀ x ∈ rest, ',' ∉ x := fun x hx => hrest x (by simp [hx])
    simp only [List.map_cons, List.flatten_cons, List.cons_append]
    rw [splitComma_append_comma t _ ht, ih g hg hr]

theorem dropWhile_space_of_not_mem (t : List Char) (h : ' ' ∉ t) :
    t.dropWhile (fun c => c == ' ') = t := by
  cases t with
  | nil => rfl
  | cons c t =>
    have hc : c ≠ ' ' := fun e => h (by simp [e])
    exact List.dropWhile_cons_of_neg (by simpa using hc)

theorem trimSpaces_of_not_mem (t : List Char) (h : ' ' ∉ t) : trimSpaces t = t := by
  unfold trimSpaces
  rw [dropWhile_space_of_not_mem t h, dropWhile_space_of_not_mem t.reverse (by simpa using h)]
  simp

theorem trimSpaces_space_cons (t : List Char) (h : ' ' ∉ t) : trimSpaces (' ' :: t) = t := by
  have h1 : trimSpaces (' ' :: t) = trimSpaces t := by
    simp [trimSpaces, List.dropWhile]
  rw [h1, trimSpaces_of_not_mem t h]

/-- The names read back from the fields joined by ", " are the fields, when no
field holds a comma or a blank. -/
theorem columnNames_intercalate (fields : List String) (h : fields ≠ [])
    (hc : ∀ f ∈ fields, ',' ∉ f.data ∧ ' ' ∉ f.data) :
    columnNames (", ".intercalate fields) = fields := by
  cases fields with
  | nil => exact absurd rfl h
  | cons f rest =>
    have hdata : (", ".intercalate (f :: rest)).data =
        f.data ++ ((rest.map (fun g => ' ' :: g.data)).map (fun g => ',' :: g)).flatten := by
      simp only [String.intercalate, intercalate_go_data, List.map_map]
      rfl
    unfold columnNames
    rw [hdata, splitComma_join _ f.data (hc f (by simp)).1]
    · simp only [List.map_cons, List.map_map]
      rw [trimSpaces_of_not_mem _ (hc f (by simp)).2]
      congr 1
      conv_rhs => rw [← List.map_id rest]
      apply List.map_congr_left
      intro g hg
      simp only [Function.comp, id]
      rw [trimSpaces_space_cons _ (hc g (by simp [hg])).2]
    · intro x hx
      obtain ⟨g, hg, rfl⟩ := List.mem_map.mp hx
      have := (hc g (by simp [hg])).1
      simp only [List.mem_cons, not_or]
      exact ⟨by decide, this⟩

theorem resources_columns_plain :
    ∀ f ∈ resources.columns, ',' ∉ f.data ∧ ' ' ∉ f.data ∧ f ≠ "" := by
  decide


/-! ### Grouping -/

theorem groupRows_mem {α : Type} (key : α → List String) (l : List α) :
    ∀ (seen : List (List String)) (x : α), x ∈ groupRows key seen l →
      x ∈ l ∧ key x ∉ seen := by
  induction l with
  | nil => intro seen x hx; simp [groupRows] at hx
  | cons r l ih =>
    intro seen x hx
    by_cases hr : key r ∈ seen
    · simp only [groupRows, hr, if_true] at hx
      exact ⟨List.mem_cons_of_mem _ (ih seen x hx).1, (ih seen x hx).2⟩
    · simp only [groupRows, hr, if_false, List.mem_cons] at hx
      rcases hx with rfl | hx
      · exact ⟨List.mem_cons_self _ _, hr⟩
      · have h := ih (key r :: seen) x hx
        exact ⟨List.mem_cons_of_mem _ h.1, fun hs => h.2 (List.mem_cons_of_mem _ hs)⟩

/-- The rows kept by `GROUP BY` have pairwise different keys. -/
theorem groupRows_pairwise {α : Type} (key : α → List String) (l : List α) :
    ∀ seen : List (List String),
      (groupRows key seen l).Pairwise (fun a b => key a ≠ key b) := by
  induction l with
  | nil => intro seen; simp [groupRows]
  | cons r l ih =>
    intro seen
    by_cases hr : key r ∈ seen
    · simp only [groupRows, hr, if_true]
      exact ih seen
    · simp only [groupRows, hr, if_false]
      refine List.Pairwise.cons ?_ (ih _)
      intro x hx heq
      exact (groupRows_mem key l _ x hx).2 (by simp [heq])

/-- Every row has its key among the keys already met or on a row kept. -/
theorem groupRows_complete {α : Type} (key : α → List String) (l : List α) :
    ∀ (seen : List (List String)) (r : α), r ∈ l →
      key r ∈ seen ∨ ∃ x ∈ groupRows key seen l, key x = key r := by
  induction l with
  | nil => intro seen r hr; cases hr
  | cons a l ih =>
    intro seen r hr
    by_cases ha : key a ∈ seen
    · simp only [groupRows, ha, if_true]
      rcases List.mem_cons.mp hr with rfl | hr
      · exact Or.inl ha
      · exact ih seen r hr
    · simp only [groupRows, ha, if_false]
      rcases List.mem_cons.mp hr with rfl | hr
      · exact Or.inr ⟨r, List.mem_cons_self _ _, rfl⟩
      · rcases ih (key a :: seen) r hr with h | ⟨x, hx, hk⟩
        · rcases List.mem_cons.mp h with h | h
          · exact Or.inr ⟨a, List.mem_cons_self _ _, h.symm⟩
          · exact Or.inl h
        · exact Or.inr ⟨x, List.mem_cons_of_mem _ hx, hk⟩

/-! ### Scanning resources -/

/-- The value of a resource in each of the nine columns. -/
theorem resources_get_values (x : Resource) :
    resources.get x "account_name" = x.AccountName ∧
      resources.get x "spinnaker_app" = x.SpinnakerApp ∧
      resources.get x "task_id" = x.TaskID ∧
      resources.get x "api_group" = x.APIGroup ∧
      resources.get x "kind" = x.Kind ∧
      resources.get x "name" = x.Name ∧
      resources.get x "namespace" = x.Namespace ∧
      resources.get x "resource" = x.Resource ∧
      resources.get x "version" = x.Version :=
  ⟨rfl, rfl, rfl, rfl, rfl, rfl, rfl, rfl, rfl⟩

theorem ite_mem_congr (fields : List String) (n a b : String) (h : n ∈ fields → a = b) :
    (if n ∈ fields then a else "") = (if n ∈ fields then b else "") := by
  by_cases hm : n ∈ fields
  · simp [hm, h hm]
  · simp [hm]

theorem ite_mem_cancel (fields : List String) (n a b : String) (hm : n ∈ fields)
    (h : (if n ∈ fields then a else "") = (if n ∈ fields then b else "")) : a = b := by
  simpa [hm] using h

/-- Two resources equal in every named column have the same scan. -/
theorem resources_scan_congr (fields : List String) (x y : Resource)
    (h : ∀ f ∈ fields, resources.get x f = resources.get y f) :
    resources.scan fields x = resources.scan fields y := by
  obtain ⟨x1, x2, x3, x4, x5, x6, x7, x8, x9⟩ := resources_get_values x
  obtain ⟨y1, y2, y3, y4, y5, y6, y7, y8, y9⟩ := resources_get_values y
  show Resource.mk _ _ _ _ _ _ _ _ _ = Resource.mk _ _ _ _ _ _ _ _ _
  rw [ite_mem_congr fields "account_name" _ _ (fun hm => x1 ▸ y1 ▸ h _ hm),
    ite_mem_congr fields "spinnaker_app" _ _ (fun hm => x2 ▸ y2 ▸ h _ hm),
    ite_mem_congr fields "task_id" _ _ (fun hm => x3 ▸ y3 ▸ h _ hm),
    ite_mem_congr fields "api_group" _ _ (fun hm => x4 ▸ y4 ▸ h _ hm),
    ite_mem_congr fields "kind" _ _ (fun hm => x5 ▸ y5 ▸ h _ hm),
    ite_mem_congr fields "name" _ _ (fun hm => x6 ▸ y6 ▸ h _ hm),
    ite_mem_congr fields "namespace" _ _ (fun hm => x7 ▸ y7 ▸ h _ hm),
    ite_mem_congr fields "resource" _ _ (fun hm => x8 ▸ y8 ▸ h _ hm),
    ite_mem_congr fields "version" _ _ (fun hm => x9 ▸ y9 ▸ h _ hm)]

/-- Two resources with the same scan are equal in every named column of the
table. -/
theorem resources_scan_inj (fields : List String) (x y : Resource)
    (h : resources.scan fields x = resources.scan fields y) :
    ∀ f ∈ fields, f ∈ resources.columns → resources.get x f = resources.get y f := by
  obtain ⟨x1, x2, x3, x4, x5, x6, x7, x8, x9⟩ := resources_get_values x
  obtain ⟨y1, y2, y3, y4, y5, y6, y7, y8, y9⟩ := resources_get_values y
  intro f hf hcol
  have hcases : f = "account_name" ∨ f = "spinnaker_app" ∨ f = "task_id" ∨ f = "api_group" ∨
      f = "kind" ∨ f = "name" ∨ f = "namespace" ∨ f = "resource" ∨ f = "version" := by
    simpa [resources] using hcol
  rcases hcases with e | e | e | e | e | e | e | e | e <;> subst e
  · rw [x1, y1]; exact ite_mem_cancel fields _ _ _ hf (congrArg Resource.AccountName h)
  · rw [x2, y2]; exact ite_mem_cancel fields _ _ _ hf (congrArg Resource.SpinnakerApp h)
  · rw [x3, y3]; exact ite_mem_cancel fields _ _ _ hf (congrArg Resource.TaskID h)
  · rw [x4, y4]; exact ite_mem_cancel fields _ _ _ hf (congrArg Resource.APIGroup h)
  · rw [x5, y5]; exact ite_mem_cancel fields _ _ _ hf (congrArg Resource.Kind h)
  · rw [x6, y6]; exact ite_mem_cancel fields _ _ _ hf (congrArg Resource.Name h)
  · rw [x7, y7]; exact ite_mem_cancel fields _ _ _ hf (congrArg Resource.Namespace h)
  · rw [x8, y8]; exact ite_mem_cancel fields _ _ _ hf (congrArg Resource.Resource h)
  · rw [x9, y9]; exact ite_mem_cancel fields _ _ _ hf (congrArg Resource.Version h)

/-! ### The listing by fields -/

/-- The method `Find` sends one statement, whatever the answer is. -/
theorem find_log {α : Type} (m : Schema α) (s : Chain) :
    (s.Find m).db.log = s.db.log ++ [s.statement m] := by
  unfold Chain.Find
  split <;> rfl

/-- The statement `ListKubernetesResourcesByFields` sends for a non-empty list
of fields selects and groups by the fields joined by ", ". -/
theorem list_by_fields_log (c : client) (fields : List String) (hne : fields ≠ []) :
    (c.ListKubernetesResourcesByFields fields).next.db.log =
      c.db.log ++ [⟨StatementKind.query, "resources", ", ".intercalate fields, [],
        ", ".intercalate fields⟩] := by
  have hlen : (fields.length == 0) = false := by
    cases fields with
    | nil => exact absurd rfl hne
    | cons f rest => rfl
  simp only [client.ListKubernetesResourcesByFields, hlen, Bool.false_eq_true, if_false,
    fieldList_eq_intercalate fields hne, find_log]
  rfl

/-- The rows of the listing by fields that are columns of the table: one row
per group of equal values in the fields, scanned on the fields; and no error. -/
theorem list_by_fields_eq (c : client) (fields : List String) (hne : fields ≠ [])
    (hcol : ∀ f ∈ fields, f ∈ resources.columns) :
    (c.ListKubernetesResourcesByFields fields).value =
        (groupRows (fun r => fields.map (resources.get r)) []
          c.db.tables.resources).map (resources.scan fields) ∧
      (c.ListKubernetesResourcesByFields fields).err = none := by
  have hlen : (fields.length == 0) = false := by
    cases fields with
    | nil => exact absurd rfl hne
    | cons f rest => rfl
  have hnames : columnNames (", ".intercalate fields) = fields :=
    columnNames_intercalate fields hne
      (fun f hf => ⟨(resources_columns_plain f (hcol f hf)).1,
        (resources_columns_plain f (hcol f hf)).2.1⟩)
  have hres : resolveColumns resources (", ".intercalate fields) = some fields := by
    unfold resolveColumns
    rw [hnames, if_pos]
    simpa using hcol
  have hgrp : ¬ ", ".intercalate fields = "" := by
    intro he
    rw [he] at hnames
    have h1 : ("" : String) ∈ fields := by
      rw [← hnames]
      decide
    exact (resources_columns_plain "" (hcol "" h1)).2.2 rfl
  have hrows : ∀ t : Tables, resources.rows t = t.resources := fun _ => rfl
  simp [client.ListKubernetesResourcesByFields, hlen, fieldList_eq_intercalate fields hne,
    Chain.Find, Chain.selectRows, DB.Select, Chain.Group, hres, resolveConditions, hgrp, hrows]

/-- C9: for a non-empty list of fields, `ListKubernetesResourcesByFields` sends
one statement, which selects and groups by the fields in their order joined by
", "; when the fields are columns of the table, it returns no error and its
rows are the scans on those fields of the recorded resources, each combination
once. -/
theorem list_by_fields_distinct_combinations (c : client) (fields : List String)
    (hne : fields ≠ []) :
    (c.ListKubernetesResourcesByFields fields).next.db.log =
        c.db.log ++ [⟨StatementKind.query, "resources", ", ".intercalate fields, [],
          ", ".intercalate fields⟩] ∧
      ((∀ f ∈ fields, f ∈ resources.columns) →
        (c.ListKubernetesResourcesByFields fields).err = none ∧
          (c.ListKubernetesResourcesByFields fields).value.Nodup ∧
          ∀ x : Resource, x ∈ (c.ListKubernetesResourcesByFields fields).value ↔
            ∃ r ∈ c.db.tables.resources, x = resources.scan fields r) := by
  refine ⟨list_by_fields_log c fields hne, fun hcol => ?_⟩
  obtain ⟨hval, herr⟩ := list_by_fields_eq c fields hne hcol
  refine ⟨herr, ?_, ?_⟩
  · rw [hval, List.Nodup, List.pairwise_map]
    refine (groupRows_pairwise (fun r => fields.map (resources.get r))
      c.db.tables.resources []).imp ?_
    intro a b hk hs
    exact hk (List.map_congr_left
      (fun f hf => resources_scan_inj fields a b hs f hf (hcol f hf)))
  · intro x
    rw [hval, List.mem_map]
    constructor
    · rintro ⟨r, hr, rfl⟩
      exact ⟨r, (groupRows_mem _ _ _ _ hr).1, rfl⟩
    · rintro ⟨r, hr, rfl⟩
      rcases groupRows_complete (fun r => fields.map (resources.get r)) _ [] r hr with h | h
      · cases h
      · obtain ⟨y, hy, hk⟩ := h
        refine ⟨y, hy, resources_scan_congr fields y r ?_⟩
        exact fun f hf => List.map_inj_left.mp hk f hf

/-- The statement of C9 at the fields `kind` and `namespace` over a store of
three resources, two of them of one kind and namespace. -/
theorem list_by_fields_distinct_combinations_witness :
    (client.ListKubernetesResourcesByFields
        ⟨⟨⟨[], [⟨"a", "app", "t1", "apps", "Deployment", "web", "default", "x", "v1"⟩,
              ⟨"a", "app", "t1", "apps", "Deployment", "api", "default", "y", "v1"⟩,
              ⟨"b", "app", "t2", "", "Pod", "job", "kube", "z", "v1"⟩], [], []⟩, []⟩⟩
        ["kind", "namespace"]).next.db.log =
      [⟨StatementKind.query, "resources", "kind, namespace", [], "kind, namespace"⟩] ∧
    (client.ListKubernetesResourcesByFields
        ⟨⟨⟨[], [⟨"a", "app", "t1", "apps", "Deployment", "web", "default", "x", "v1"⟩,
              ⟨"a", "app", "t1", "apps", "Deployment", "api", "default", "y", "v1"⟩,
              ⟨"b", "app", "t2", "", "Pod", "job", "kube", "z", "v1"⟩], [], []⟩, []⟩⟩
        ["kind", "namespace"]).value.Nodup :=
  ⟨(list_by_fields_distinct_combinations _ ["kind", "namespace"] (by decide)).1,
   ((list_by_fields_distinct_combinations _ ["kind", "namespace"] (by decide)).2
      (by decide)).2.1⟩

end Clouddriver
